import Mathlib

/-!
Shallow embedding of the lead-generation pipeline in `leadgen.js`.

Pure computation is translated directly; each external call (website fetch,
generative-text provider) is modelled by an explicit oracle argument: `some`
carries the data a successful call would have produced, `none` stands for any
failure that the surrounding `try/catch` in the source converts into the
fallback path.  Timestamps (`new Date().toISOString()`) are passed in as an
explicit `now : String` argument.
-/

namespace Leadgen

/-- JS `needle` at the head of `hay`: `hay` starts with `needle` (char lists). -/
def startsWithL : List Char → List Char → Bool
  | _, [] => true
  | [], _ :: _ => false
  | a :: as, b :: bs => a == b && startsWithL as bs

/-- Whether `pat` occurs as a contiguous run inside `hay` (char lists). -/
def containsSub (pat : List Char) : List Char → Bool
  | [] => startsWithL [] pat
  | c :: rest => startsWithL (c :: rest) pat || containsSub pat rest

/-- JS `s.includes(pat)`: substring containment on strings. -/
def includes (s pat : String) : Bool :=
  containsSub pat.toList s.toList

/-- JS `s.toLowerCase()`, computed characterwise over the char list. -/
def jsToLower (s : String) : String :=
  String.mk (s.toList.map Char.toLower)

/-- JS `s.trim()`: strip whitespace from both ends, over the char list. -/
def jsTrim (s : String) : String :=
  String.mk (((s.toList.dropWhile Char.isWhitespace).reverse.dropWhile
    Char.isWhitespace).reverse)

/-- A candidate company as produced by the source stage (fields all present). -/
structure Candidate where
  name : String
  website : String
  employeeCount : Nat
  industry : String
  location : String
deriving DecidableEq, Repr

/-- `INDUSTRY_INSIGHTS`: industry keyword → three canned insight strings,
in the object-literal declaration order of the source. -/
def INDUSTRY_INSIGHTS : List (String × List String) :=
  [ ("Software",
      [ "Uses cloud-based development infrastructure",
        "Recently expanded their engineering team",
        "Focuses on SaaS solutions for enterprise clients" ]),
    ("Data",
      [ "Processes large datasets for analytics",
        "Offers real-time data visualization tools",
        "Serves clients in finance and healthcare sectors" ]),
    ("Cloud",
      [ "Specializes in multi-cloud deployments",
        "Offers 24/7 infrastructure monitoring",
        "Recently achieved SOC 2 compliance" ]),
    ("AI",
      [ "Develops machine learning models",
        "Requires high-performance computing resources",
        "Focus on computer vision and NLP applications" ]),
    ("Cyber",
      [ "Provides enterprise security solutions",
        "Offers threat detection and response services",
        "Compliance with GDPR and HIPAA requirements" ]) ]

/-- `getCompanySizeInsights`: size heuristic keyed on the 100-employee cutoff. -/
def getCompanySizeInsights (employeeCount : Nat) : String :=
  if employeeCount > 100 then
    "Large team suggests significant IT infrastructure needs"
  else
    "Growing company likely expanding their tech stack"

/-- `generateMockInsights`: heuristic fallback insights from industry and size.
`Object.keys(...).find` over the declaration-ordered keys becomes `List.find?`
over the declaration-ordered association list. -/
def generateMockInsights (company : Candidate) : List String :=
  let matched := INDUSTRY_INSIGHTS.find? (fun kv => includes company.industry kv.1)
  let insights :=
    (match matched with
     | some kv => kv.2
     | none => []) ++ [getCompanySizeInsights company.employeeCount]
  if insights.length > 0 then insights else ["Limited industry information available"]

/-- The fixed technology keyword list of `extractTechnologyInsights`. -/
def techKeywords : List String :=
  ["cloud", "ai", "machine learning", "saas", "api", "software", "technology",
   "digital", "automation", "analytics"]

/-- `extractTechnologyInsights`: one summary string over the first three
matching technology keywords, or no insight at all. -/
def extractTechnologyInsights (pageText : String) : List String :=
  let foundKeywords := techKeywords.filter (fun keyword => includes pageText keyword)
  if foundKeywords.length > 0 then
    ["Technology focus: " ++ String.intercalate ", " (foundKeywords.take 3)]
  else
    []

/-- The fixed business keyword list of `extractBusinessInsights`. -/
def businessKeywords : List String :=
  ["enterprise", "fortune", "clients", "customers", "global", "scale", "growth"]

/-- `extractBusinessInsights`: one summary string over the first two matching
business keywords, or no insight at all. -/
def extractBusinessInsights (pageText : String) : List String :=
  let foundBusinessWords := businessKeywords.filter (fun keyword => includes pageText keyword)
  if foundBusinessWords.length > 0 then
    ["Business indicators: " ++ String.intercalate ", " (foundBusinessWords.take 2)]
  else
    []

/-- The data a successful website fetch plus parse yields: the description
meta tag if present, the title text (empty when absent) and the body text. -/
structure Page where
  metaDescription : Option String
  title : String
  bodyText : String
deriving DecidableEq, Repr

/-- `extractMetadataInsights`: description and title insights; JS truthiness
means a `none` or empty string produces no insight. -/
def extractMetadataInsights (page : Page) : List String :=
  (match page.metaDescription with
   | some d => if d ≠ "" then ["Website focus: " ++ d.take 100 ++ "..."] else []
   | none => []) ++
  (if page.title ≠ "" then ["Company positioning: " ++ page.title.take 80 ++ "..."] else [])

/-- A candidate extended with insight strings: the `{...company, insights,
lastUpdated}` record built by `scrapeCompanyWebsite`. -/
structure EnrichedCandidate where
  toCandidate : Candidate
  insights : List String
  lastUpdated : String
deriving DecidableEq, Repr

/-- The insight list assembled on the successful scrape path, in source order:
metadata, technology, business, then always the company-size insight. -/
def websiteInsightList (page : Page) (company : Candidate) : List String :=
  extractMetadataInsights page ++
  extractTechnologyInsights (jsToLower page.bodyText) ++
  extractBusinessInsights (jsToLower page.bodyText) ++
  [getCompanySizeInsights company.employeeCount]

/-- `scrapeCompanyWebsite`: fetch oracle `some page` is the successful path,
`none` is any caught failure, which falls back to `generateMockInsights`. -/
def scrapeCompanyWebsite (fetch : Option Page) (now : String) (company : Candidate) :
    EnrichedCandidate :=
  match fetch with
  | some page =>
    let insights := websiteInsightList page company
    { toCandidate := company
      insights := if insights.length > 0 then insights
                  else ["Limited website information available"]
      lastUpdated := now }
  | none =>
    { toCandidate := company
      insights := generateMockInsights company
      lastUpdated := now }

/-- The insight sentence of `createFallbackMessage`: JS truthiness of
`insights[0]` — absent or empty first insight selects the generic sentence. -/
def fallbackInsightText (enrichedCompany : EnrichedCandidate) : String :=
  match enrichedCompany.insights.head? with
  | some s =>
    if s ≠ "" then
      "Given your " ++ jsToLower s ++
        ", our high-performance servers and workstations could significantly enhance your operations."
    else
      "Our hardware solutions could significantly enhance your operations."
  | none => "Our hardware solutions could significantly enhance your operations."

/-- `createFallbackMessage`: the fixed deterministic outreach template. -/
def createFallbackMessage (enrichedCompany : EnrichedCandidate) : String :=
  "Hi " ++ enrichedCompany.toCandidate.name ++ " team,\n\n" ++
  "I noticed your company in the " ++ enrichedCompany.toCandidate.industry ++
  " space with " ++ toString enrichedCompany.toCandidate.employeeCount ++
  " employees. Based on your growth and technical focus, I believe TechHardware Pro could help optimize your IT infrastructure with enterprise-grade hardware solutions.\n\n" ++
  fallbackInsightText enrichedCompany ++
  "\n\nWould you be open to a brief conversation about your current hardware needs?\n\nBest regards,\nSales Team - TechHardware Pro"

/-- The terminal record built by `generatePersonalizedMessage`. -/
structure FinalResult where
  toEnriched : EnrichedCandidate
  personalizedMessage : String
  messageGenerated : String
  aiGenerated : Bool
deriving DecidableEq, Repr

/-- `generatePersonalizedMessage`: provider oracle `some content` is a
successful completion whose text is trimmed; `none` is any caught failure,
which falls back to the deterministic template. -/
def generatePersonalizedMessage (aiResponse : Option String) (now : String)
    (enrichedCompany : EnrichedCandidate) : FinalResult :=
  match aiResponse with
  | some content =>
    { toEnriched := enrichedCompany
      personalizedMessage := jsTrim content
      messageGenerated := now
      aiGenerated := true }
  | none =>
    { toEnriched := enrichedCompany
      personalizedMessage := createFallbackMessage enrichedCompany
      messageGenerated := now
      aiGenerated := false }

/-- `enrichCompaniesWithInsights`: the sequential per-candidate loop, one
enriched record pushed per candidate (the politeness delay is pure I/O). -/
def enrichCompaniesWithInsights (fetch : Candidate → Option Page) (now : String)
    (companies : List Candidate) : List EnrichedCandidate :=
  companies.map (fun company => scrapeCompanyWebsite (fetch company) now company)

/-- `generateMessagesForCompanies`: the sequential per-candidate loop, one
final result pushed per enriched candidate. -/
def generateMessagesForCompanies (ai : EnrichedCandidate → Option String) (now : String)
    (enrichedCompanies : List EnrichedCandidate) : List FinalResult :=
  enrichedCompanies.map (fun company => generatePersonalizedMessage (ai company) now company)

/-- One provider organization record as consumed by `transformApolloResponse`;
`none` models an absent (`undefined`) field. -/
structure ApolloOrg where
  name : Option String
  website_url : Option String
  estimated_num_employees : Option Nat
  industry : Option String
  city : Option String
  state : Option String
  country : Option String
deriving DecidableEq, Repr

/-- The intermediate record `transformApolloResponse` maps each organization
to, before the truthiness filter; field values are copied verbatim. -/
structure RawCandidate where
  name : Option String
  website : Option String
  employeeCount : Option Nat
  industry : Option String
  location : String
deriving DecidableEq, Repr

/-- JS `x || ''` on a possibly-absent string. -/
def orEmpty : Option String → String
  | some s => s
  | none => ""

/-- JS truthiness of a possibly-absent string: present and non-empty. -/
def truthyStr : Option String → Bool
  | some s => s ≠ ""
  | none => false

/-- `transformApolloResponse`: map each organization to a candidate record,
then keep only those whose `name` and `website` are truthy. -/
def transformApolloResponse (organizations : List ApolloOrg) : List RawCandidate :=
  (organizations.map (fun org =>
    ({ name := org.name
       website := org.website_url
       employeeCount := org.estimated_num_employees
       industry := org.industry
       location := jsTrim (orEmpty org.city ++ ", " ++ orEmpty org.state ++ " " ++
                    orEmpty org.country) } : RawCandidate))).filter
    (fun company => truthyStr company.name && truthyStr company.website)

/-! ## Shared helper lemmas and concrete fixtures -/

/-- Every fallback insight list ends with the appended size insight, so it is
never empty (and the dead placeholder branch is never taken). -/
lemma generateMockInsights_length_pos (c : Candidate) :
    0 < (generateMockInsights c).length := by
  unfold generateMockInsights
  cases h : INDUSTRY_INSIGHTS.find? (fun kv => includes c.industry kv.1) <;> simp [h]

/-- The successful scrape path also always appends the size insight. -/
lemma websiteInsightList_length_pos (page : Page) (c : Candidate) :
    0 < (websiteInsightList page c).length := by
  simp [websiteInsightList]

/-- The fallback message template always begins with a fixed greeting, so its
length is positive whatever the candidate's fields are. -/
lemma createFallbackMessage_length_pos (ec : EnrichedCandidate) :
    0 < (createFallbackMessage ec).length := by
  unfold createFallbackMessage
  simp only [String.length_append]
  have h : "Hi ".length = 3 := rfl
  omega

/-- A keyword filter is empty exactly when no keyword occurs in the text. -/
lemma filter_includes_eq_nil_iff (keywords : List String) (pageText : String) :
    keywords.filter (fun k => includes pageText k) = [] ↔
      ∀ k ∈ keywords, includes pageText k = false := by
  rw [List.filter_eq_nil_iff]
  simp

/-- Fixture: a candidate whose industry contains none of the mapping keys. -/
def unknownCand : Candidate :=
  { name := "Acme Widgets"
    website := "https://acmewidgets.example"
    employeeCount := 10
    industry := "Unknown Widgets"
    location := "Austin, TX USA" }

/-- Fixture: an enriched candidate with one heuristic insight. -/
def ecDemo : EnrichedCandidate :=
  { toCandidate :=
      { name := "Acme Widgets"
        website := "https://acmewidgets.example"
        employeeCount := 10
        industry := "Unknown Widgets"
        location := "Austin, TX USA" }
    insights := ["Growing company likely expanding their tech stack"]
    lastUpdated := "2024-01-01T00:00:00.000Z" }

/-- Fixture: an enriched candidate with an empty insight list. -/
def ecEmpty : EnrichedCandidate :=
  { toCandidate :=
      { name := "Bare Co"
        website := "https://bare.example"
        employeeCount := 5
        industry := "Retail"
        location := "" }
    insights := []
    lastUpdated := "2024-01-01T00:00:00.000Z" }

/-- Fixture: a provider record with every field present and non-empty. -/
def orgDemo : ApolloOrg :=
  { name := some "Acme Widgets"
    website_url := some "https://acmewidgets.example"
    estimated_num_employees := some 50
    industry := some "Software"
    city := some "Austin"
    state := some "TX"
    country := some "USA" }

/-- Fixture: a provider record missing its name, dropped by the filter. -/
def orgNoName : ApolloOrg :=
  { name := none
    website_url := some "https://nameless.example"
    estimated_num_employees := some 12
    industry := some "Data"
    city := none
    state := none
    country := none }

/-- The candidate record `orgDemo` is normalized to. -/
def rawAcme : RawCandidate :=
  { name := some "Acme Widgets"
    website := some "https://acmewidgets.example"
    employeeCount := some 50
    industry := some "Software"
    location := "Austin, TX USA" }

/-! ## Claims -/

/-- C1 counterexample: for the no-match candidate of Scenario B (industry
"Unknown Widgets", 10 employees) the fallback insight list is the one-element
list with only the size insight; the "Limited industry information available"
placeholder does not appear, because the size insight is appended before the
emptiness test so the placeholder branch is unreachable. -/
theorem generateMockInsights_no_match_counterexample :
    generateMockInsights unknownCand =
      ["Growing company likely expanding their tech stack"] ∧
    "Limited industry information available" ∉ generateMockInsights unknownCand := by
  decide

/-- C1 (amended): for every candidate whose industry string contains none of
the mapping keys, `generateMockInsights` returns exactly the one-element list
holding the company-size insight; the placeholder string is never produced. -/
theorem generateMockInsights_no_match (c : Candidate)
    (h : ∀ kv ∈ INDUSTRY_INSIGHTS, includes c.industry kv.1 = false) :
    generateMockInsights c = [getCompanySizeInsights c.employeeCount] := by
  unfold generateMockInsights
  have hfind : INDUSTRY_INSIGHTS.find? (fun kv => includes c.industry kv.1) = none := by
    rw [List.find?_eq_none]
    intro kv hkv
    simp [h kv hkv]
  simp [hfind]

/-- C1 witness: the amended statement applied to the Scenario B candidate. -/
theorem generateMockInsights_no_match_witness :
    generateMockInsights unknownCand = [getCompanySizeInsights 10] :=
  generateMockInsights_no_match unknownCand (by decide)

/-- C2: whatever the fetch oracle returns, the enrichment result has at least
one insight, and its insight list comes from exactly one of the two paths: the
website-derived list when the fetch succeeded, the heuristic fallback list
when it failed. -/
theorem scrapeCompanyWebsite_insights_spec (fetch : Option Page) (now : String)
    (c : Candidate) :
    1 ≤ (scrapeCompanyWebsite fetch now c).insights.length ∧
    (∀ page, fetch = some page →
      (scrapeCompanyWebsite fetch now c).insights = websiteInsightList page c) ∧
    (fetch = none →
      (scrapeCompanyWebsite fetch now c).insights = generateMockInsights c) := by
  cases fetch with
  | none =>
      refine ⟨generateMockInsights_length_pos c, ?_, fun _ => rfl⟩
      intro page hpage
      cases hpage
  | some page =>
      have hpos := websiteInsightList_length_pos page c
      have hins : (scrapeCompanyWebsite (some page) now c).insights =
          websiteInsightList page c := by
        simp [scrapeCompanyWebsite, hpos]
      refine ⟨?_, ?_, ?_⟩
      · rw [hins]
        exact hpos
      · intro page' hpage'
        cases hpage'
        exact hins
      · intro hnone
        cases hnone

/-- C2 witness: the statement applied on the fallback path to a concrete
candidate, where the insight list is the heuristic one and is non-empty. -/
theorem scrapeCompanyWebsite_insights_spec_witness :
    (scrapeCompanyWebsite none "2024-01-01T00:00:00.000Z" unknownCand).insights =
      generateMockInsights unknownCand ∧
    1 ≤ (scrapeCompanyWebsite none "2024-01-01T00:00:00.000Z" unknownCand).insights.length :=
  ⟨(scrapeCompanyWebsite_insights_spec none "2024-01-01T00:00:00.000Z" unknownCand).2.2 rfl,
   (scrapeCompanyWebsite_insights_spec none "2024-01-01T00:00:00.000Z" unknownCand).1⟩

/-- C3 counterexample: a successful provider call whose completion text is the
empty string yields `aiGenerated = true` together with an empty
`personalizedMessage`, so the message is not always non-empty on the success
path as the claim states. -/
theorem generatePersonalizedMessage_empty_counterexample :
    (generatePersonalizedMessage (some "") "2024-01-01T00:00:00.000Z" ecDemo).aiGenerated
        = true ∧
    (generatePersonalizedMessage (some "") "2024-01-01T00:00:00.000Z" ecDemo).personalizedMessage
        = "" := by
  exact ⟨rfl, rfl⟩

/-- C3 (amended): `aiGenerated` is true exactly when the provider call
succeeded; on success the message is the trimmed provider text (hence
non-empty only when the provider returned non-whitespace text); on failure
the message equals the deterministic fallback template built by
`createFallbackMessage` from the candidate's fields and is non-empty. -/
theorem generatePersonalizedMessage_spec (aiResponse : Option String) (now : String)
    (ec : EnrichedCandidate) :
    ((generatePersonalizedMessage aiResponse now ec).aiGenerated = true ↔
      aiResponse.isSome = true) ∧
    (∀ content, aiResponse = some content →
      (generatePersonalizedMessage aiResponse now ec).personalizedMessage = jsTrim content) ∧
    (aiResponse = none →
      (generatePersonalizedMessage aiResponse now ec).personalizedMessage =
        createFallbackMessage ec ∧
      0 < (generatePersonalizedMessage aiResponse now ec).personalizedMessage.length) := by
  cases aiResponse with
  | none =>
      refine ⟨by simp [generatePersonalizedMessage], ?_, ?_⟩
      · intro content hc
        cases hc
      · intro _
        exact ⟨rfl, createFallbackMessage_length_pos ec⟩
  | some content =>
      refine ⟨by simp [generatePersonalizedMessage], ?_, ?_⟩
      · intro content' hc
        cases hc
        rfl
      · intro hnone
        cases hnone

/-- C3 witness: the amended statement applied on the failure path to a
concrete enriched candidate. -/
theorem generatePersonalizedMessage_spec_witness :
    ((generatePersonalizedMessage none "2024-01-01T00:00:00.000Z" ecDemo).aiGenerated = true ↔
      (none : Option String).isSome = true) ∧
    (generatePersonalizedMessage none "2024-01-01T00:00:00.000Z" ecDemo).personalizedMessage =
      createFallbackMessage ecDemo :=
  ⟨(generatePersonalizedMessage_spec none "2024-01-01T00:00:00.000Z" ecDemo).1,
   ((generatePersonalizedMessage_spec none "2024-01-01T00:00:00.000Z" ecDemo).2.2 rfl).1⟩

/-- C4: the enrichment stage and the generation stage each produce exactly one
output record per input record, so a candidate list entering enrichment yields
equally many enriched candidates and equally many final results, whatever the
per-candidate oracles do. -/
theorem pipeline_length_preserved (fetch : Candidate → Option Page)
    (ai : EnrichedCandidate → Option String) (now₁ now₂ : String)
    (companies : List Candidate) :
    (enrichCompaniesWithInsights fetch now₁ companies).length = companies.length ∧
    (generateMessagesForCompanies ai now₂
        (enrichCompaniesWithInsights fetch now₁ companies)).length = companies.length := by
  constructor
  · simp [enrichCompaniesWithInsights]
  · simp [generateMessagesForCompanies, enrichCompaniesWithInsights]

/-- C5: normalization returns at most as many candidates as provider records,
and every returned candidate has a present, non-empty name and website. -/
theorem transformApolloResponse_spec (organizations : List ApolloOrg) :
    (transformApolloResponse organizations).length ≤ organizations.length ∧
    ∀ company ∈ transformApolloResponse organizations,
      (∃ s, company.name = some s ∧ s ≠ "") ∧
      (∃ s, company.website = some s ∧ s ≠ "") := by
  constructor
  · calc (transformApolloResponse organizations).length
        ≤ (organizations.map (fun org =>
            ({ name := org.name
               website := org.website_url
               employeeCount := org.estimated_num_employees
               industry := org.industry
               location := jsTrim (orEmpty org.city ++ ", " ++ orEmpty org.state ++ " " ++
                            orEmpty org.country) } : RawCandidate))).length :=
          List.length_filter_le _ _
      _ = organizations.length := List.length_map _ _
  · intro company hmem
    have hp := List.of_mem_filter hmem
    have hand := Bool.and_eq_true_iff.mp hp
    constructor
    · rcases hname : company.name with _ | s
      · rw [hname] at hand
        exact absurd hand.1 (by simp [truthyStr])
      · refine ⟨s, rfl, ?_⟩
        have := hand.1
        rw [hname] at this
        simpa [truthyStr] using this
    · rcases hweb : company.website with _ | s
      · rw [hweb] at hand
        exact absurd hand.2 (by simp [truthyStr])
      · refine ⟨s, rfl, ?_⟩
        have := hand.2
        rw [hweb] at this
        simpa [truthyStr] using this

/-- C5 witness: the statement applied to a two-record list in which one record
lacks a name: only the complete record survives, and its fields are shown
non-empty by membership of the concrete output. -/
theorem transformApolloResponse_spec_witness :
    (transformApolloResponse [orgDemo, orgNoName]).length ≤
      ([orgDemo, orgNoName] : List ApolloOrg).length ∧
    ((∃ s, rawAcme.name = some s ∧ s ≠ "") ∧
     (∃ s, rawAcme.website = some s ∧ s ≠ "")) :=
  ⟨(transformApolloResponse_spec [orgDemo, orgNoName]).1,
   (transformApolloResponse_spec [orgDemo, orgNoName]).2 rawAcme (by decide)⟩

/-- C6: Scenario A — for industry `"Enterprise Software"` with 150 employees,
the industry string contains the first-declared key `"Software"`, so the
fallback insight list is the three canned Software insights followed by the
large-company size insight. -/
theorem generateMockInsights_enterprise_software :
    generateMockInsights
      { name := "Acme Platforms"
        website := "https://acmeplatforms.example"
        employeeCount := 150
        industry := "Enterprise Software"
        location := "Austin, TX USA" } =
      [ "Uses cloud-based development infrastructure",
        "Recently expanded their engineering team",
        "Focuses on SaaS solutions for enterprise clients",
        "Large team suggests significant IT infrastructure needs" ] := by
  decide

/-- C7: the fallback insight list is a deterministic function of the industry
string and the employee count alone — two candidates agreeing on those two
fields receive identical insight lists, whatever their other fields are. -/
theorem generateMockInsights_deterministic (c₁ c₂ : Candidate)
    (hind : c₁.industry = c₂.industry) (hemp : c₁.employeeCount = c₂.employeeCount) :
    generateMockInsights c₁ = generateMockInsights c₂ := by
  unfold generateMockInsights
  rw [hind, hemp]

/-- C7 witness: two candidates sharing industry and size but differing in
name, website and location get the same insight list. -/
theorem generateMockInsights_deterministic_witness :
    generateMockInsights
      { name := "First Co", website := "https://first.example", employeeCount := 42,
        industry := "Data Analytics", location := "Austin, TX USA" } =
    generateMockInsights
      { name := "Second Co", website := "https://second.example", employeeCount := 42,
        industry := "Data Analytics", location := "" } :=
  generateMockInsights_deterministic _ _ rfl rfl

/-- C8: each keyword scan yields the empty list exactly when no keyword of its
fixed set occurs in the page text; otherwise it yields one summary string over
the first at-most-3 (technology) or at-most-2 (business) matching keywords, in
keyword-list order (the order `List.filter` preserves). -/
theorem extractKeywordInsights_spec (pageText : String) :
    (extractTechnologyInsights pageText = [] ↔
      ∀ k ∈ techKeywords, includes pageText k = false) ∧
    ((∃ k ∈ techKeywords, includes pageText k = true) →
      extractTechnologyInsights pageText =
        ["Technology focus: " ++ String.intercalate ", "
          ((techKeywords.filter (fun k => includes pageText k)).take 3)]) ∧
    (extractBusinessInsights pageText = [] ↔
      ∀ k ∈ businessKeywords, includes pageText k = false) ∧
    ((∃ k ∈ businessKeywords, includes pageText k = true) →
      extractBusinessInsights pageText =
        ["Business indicators: " ++ String.intercalate ", "
          ((businessKeywords.filter (fun k => includes pageText k)).take 2)]) := by
  refine ⟨?_, ?_, ?_, ?_⟩
  · unfold extractTechnologyInsights
    rw [← filter_includes_eq_nil_iff techKeywords pageText]
    by_cases hnil : techKeywords.filter (fun keyword => includes pageText keyword) = []
    · simp [hnil]
    · have hlen : 0 < (techKeywords.filter (fun keyword => includes pageText keyword)).length :=
        List.length_pos.mpr hnil
      simp [hnil, hlen]
  · intro ⟨k, hk, hinc⟩
    unfold extractTechnologyInsights
    have hmem : k ∈ techKeywords.filter (fun k => includes pageText k) :=
      List.mem_filter.mpr ⟨hk, hinc⟩
    have hne : techKeywords.filter (fun k => includes pageText k) ≠ [] :=
      List.ne_nil_of_mem hmem
    have hlen : 0 < (techKeywords.filter (fun k => includes pageText k)).length :=
      List.length_pos.mpr hne
    simp [hlen]
  · unfold extractBusinessInsights
    rw [← filter_includes_eq_nil_iff businessKeywords pageText]
    by_cases hnil : businessKeywords.filter (fun keyword => includes pageText keyword) = []
    · simp [hnil]
    · have hlen : 0 < (businessKeywords.filter (fun keyword => includes pageText keyword)).length :=
        List.length_pos.mpr hnil
      simp [hnil, hlen]
  · intro ⟨k, hk, hinc⟩
    unfold extractBusinessInsights
    have hmem : k ∈ businessKeywords.filter (fun k => includes pageText k) :=
      List.mem_filter.mpr ⟨hk, hinc⟩
    have hne : businessKeywords.filter (fun k => includes pageText k) ≠ [] :=
      List.ne_nil_of_mem hmem
    have hlen : 0 < (businessKeywords.filter (fun k => includes pageText k)).length :=
      List.length_pos.mpr hne
    simp [hlen]

/-- C8 witness: the statement applied to a concrete page text in which some
technology keywords occur. -/
theorem extractKeywordInsights_spec_witness :
    extractTechnologyInsights "we build cloud saas tools for enterprise clients" =
      ["Technology focus: " ++ String.intercalate ", "
        ((techKeywords.filter
          (fun k => includes "we build cloud saas tools for enterprise clients" k)).take 3)] :=
  (extractKeywordInsights_spec "we build cloud saas tools for enterprise clients").2.1
    ⟨"cloud", by decide, by decide⟩

/-- C9: both stages only extend their input: enrichment embeds the candidate
record unchanged, and message generation embeds the enriched record unchanged,
so every original candidate field survives both stages verbatim. -/
theorem stages_preserve_candidate_fields (fetch : Option Page) (ai : Option String)
    (now₁ now₂ : String) (c : Candidate) :
    (scrapeCompanyWebsite fetch now₁ c).toCandidate = c ∧
    (generatePersonalizedMessage ai now₂ (scrapeCompanyWebsite fetch now₁ c)).toEnriched =
      scrapeCompanyWebsite fetch now₁ c := by
  cases fetch <;> cases ai <;> exact ⟨rfl, rfl⟩

/-- C10: the fallback message builder is total and non-empty on every enriched
candidate, and an absent first insight selects the generic hardware-solutions
sentence instead of failing. -/
theorem createFallbackMessage_total_nonempty (ec : EnrichedCandidate) :
    0 < (createFallbackMessage ec).length ∧
    (ec.insights = [] →
      fallbackInsightText ec =
        "Our hardware solutions could significantly enhance your operations.") := by
  refine ⟨createFallbackMessage_length_pos ec, ?_⟩
  intro h
  simp [fallbackInsightText, h]

/-- C10 witness: the statement applied to an enriched candidate whose insight
list is empty. -/
theorem createFallbackMessage_total_nonempty_witness :
    0 < (createFallbackMessage ecEmpty).length ∧
    fallbackInsightText ecEmpty =
      "Our hardware solutions could significantly enhance your operations." :=
  ⟨(createFallbackMessage_total_nonempty ecEmpty).1,
   (createFallbackMessage_total_nonempty ecEmpty).2 rfl⟩

end Leadgen
